import Mathlib

/-!
Verification development for the main-menu GUI of the openttd-cmclient
repository (`src/intro_gui.cpp`).

The development shallowly embeds the three subsystems of the file:

* the percent-bar renderer `drawPercentBar`;
* the viewport-command sign parser `ReadIntroGameViewportCommands`
  (including a faithful model of the ECMAScript regex
  `^T\s*([0-9]+)\s*([-+A-Z0-9]+)\s*([0-9]+)` with case-insensitive
  matching and greedy backtracking);
* the per-frame command player `SelectGameWindow::OnRealtimeTick`;
* the server-list comparator `SelectGameWindow::NameSorter`.

Machine integers are modelled as `Nat`/`Int` with explicit wrapping
(`% 2^32`) where the C++ code performs unsigned arithmetic.  The C++
`double` values (percent ratios, the pan interpolation factor) are
modelled as `ℚ`; for the dyadic inputs used in the theorems below the
IEEE-754 computations of the source are exact, so the rational model
agrees with the code.  External engine services (coordinate remapping,
vehicle position lookup) are passed in as explicit function parameters.
-/

/-- World/screen coordinate pair, after the C++ `Point` (two `int`s). -/
structure GfxPoint where
  x : Int
  y : Int
deriving DecidableEq

/-- Rectangle with inclusive pixel coordinates, after the C++ `Rect`. -/
structure GfxRect where
  left : Int
  top : Int
  right : Int
  bottom : Int
deriving DecidableEq

/-- Modelled from the spec: the `Rect::WithWidth` helper of `gfx_type.h`
(not part of `src/`) — selects a segment of the given width at the start
(`atEnd = false`) or at the end (`atEnd = true`) of the rectangle. -/
def GfxRect.withWidth (r : GfxRect) (width : Int) (atEnd : Bool) : GfxRect :=
  if atEnd then ⟨r.right - width + 1, r.top, r.right, r.bottom⟩
  else ⟨r.left, r.top, r.left + width - 1, r.bottom⟩

/-- The wrap modulus of the 32-bit unsigned integers used by the code. -/
def U32 : Nat := 4294967296

/-- The `SIZE_MAX` sentinel used for "no viewport command selected". -/
def SIZE_MAX : Nat := 18446744073709551615

/-- Shallow embedding of `drawPercentBar` (`intro_gui.cpp` lines 77-92).
Returns the list of `GfxFillRect` calls the function issues, in order;
the `Bool` is `true` for the "done" (green) fill and `false` for the
"not-done" (grey) fill.  `total` and `middle` are the two `uint32_t`
locals; the `double` ratio `per` is modelled as `ℚ` and the
`double → uint32_t` conversion truncates (for `per ∈ [0,1]` the value is
in range, so no wrapping occurs). -/
def drawPercentBar (area : GfxRect) (per : ℚ) : List (GfxRect × Bool) :=
  let total : Nat := ((area.right - area.left).emod (U32 : Int)).toNat
  let middle : Nat := ((⌊(total : ℚ) * per⌋).emod (U32 : Int)).toNat
  let green := area.withWidth (middle : Int) false
  let red := area.withWidth ((total - middle : Nat) : Int) true
  (if middle ≠ 100 then [(red, false)] else []) ++
    (if middle ≠ 0 then [(green, true)] else [])

/-! ### Sign parser (`ReadIntroGameViewportCommands`, lines 223-286) -/

/-- Whitespace class of the regex escape `\s` (ASCII range). -/
def isWs (c : Char) : Bool :=
  c = ' ' ∨ c = '\t' ∨ c = '\n' ∨ c = '\x0b' ∨ c = '\x0c' ∨ c = '\r'

/-- Character class `[0-9]`. -/
def isDigitChar (c : Char) : Bool := '0' ≤ c ∧ c ≤ '9'

/-- Character class `[-+A-Z0-9]` under `std::regex_constants::icase`,
which additionally matches the lowercase letters. -/
def isFlagChar (c : Char) : Bool :=
  c = '-' ∨ c = '+' ∨ ('A' ≤ c ∧ c ≤ 'Z') ∨ ('a' ≤ c ∧ c ≤ 'z') ∨ isDigitChar c

/-- Numeric value of a digit string (most significant digit first). -/
def digitsVal (l : List Char) : Nat :=
  l.foldl (fun a c => a * 10 + (c.toNat - 48)) 0

/-- Tail of the regex after the flags group: `\s*([0-9]+)`.  A whitespace
character is never a digit, so the greedy `\s*` never has to give
characters back; the final `([0-9]+)` is the last pattern element, so it
always captures the maximal digit run (at least one digit). -/
def matchDelayTail (s : List Char) : Option (List Char) :=
  let s1 := s.dropWhile isWs
  let d := s1.takeWhile isDigitChar
  if d.isEmpty then none else some d

/-- Backtracking over the length of the flags group `([-+A-Z0-9]+)`:
the greedy engine first tries the maximal run of flag characters and
shortens it until the rest of the pattern matches.  `k` is the candidate
length still to try (tried in decreasing order, minimum 1). -/
def tryFlagsLen : Nat → List Char → Option (List Char × List Char)
  | 0, _ => none
  | k + 1, s =>
    match matchDelayTail (s.drop (k + 1)) with
    | some d => some (s.take (k + 1), d)
    | none => tryFlagsLen k s

/-- Matches `([-+A-Z0-9]+)\s*([0-9]+)` at the start of `s`, returning the
captures of the flags group and the delay group. -/
def matchFlagsAndDelay (s : List Char) : Option (List Char × List Char) :=
  tryFlagsLen (s.takeWhile isFlagChar).length s

/-- Backtracking over the length of the sequence-index group `([0-9]+)`:
a digit is also a flag character, so shortening this group can hand
digits over to the flags group (this is what makes names such as
`"T 1 30"` match, cf. the `C10` theorem below). -/
def tryIndexLen : Nat → List Char → Option (List Char × List Char × List Char)
  | 0, _ => none
  | j + 1, s =>
    match matchFlagsAndDelay ((s.drop (j + 1)).dropWhile isWs) with
    | some (f, d) => some (s.take (j + 1), f, d)
    | none => tryIndexLen j s

/-- Faithful model of `std::regex_search` for the anchored pattern
`^T\s*([0-9]+)\s*([-+A-Z0-9]+)\s*([0-9]+)` with `icase`
(`intro_gui.cpp` line 228): ECMAScript leftmost greedy matching with
backtracking, anchored at the start by `^`; trailing unmatched input is
allowed.  Returns the three capture groups. -/
def matchSignLanguage (name : String) : Option (List Char × List Char × List Char) :=
  match name.data with
  | [] => none
  | c :: rest =>
    if c = 'T' ∨ c = 't' then
      let s := rest.dropWhile isWs
      tryIndexLen (s.takeWhile isDigitChar).length s
    else none

/-- Model of `ParseInteger<int>` (strings of decimal digits only, as
produced by the regex groups): fails on values exceeding `INT_MAX`. -/
def parseIntegerInt (g : List Char) : Option Int :=
  if g.isEmpty = false ∧ g.all isDigitChar ∧ digitsVal g ≤ 2147483647 then
    some (digitsVal g)
  else none

/-- Model of `ParseInteger<uint>`: fails on values exceeding `UINT_MAX`. -/
def parseIntegerUint (g : List Char) : Option Nat :=
  if g.isEmpty = false ∧ g.all isDigitChar ∧ digitsVal g ≤ U32 - 1 then
    some (digitsVal g)
  else none

/-- Horizontal alignment of `IntroGameViewportCommand`. -/
inductive AlignmentH : Type
  | LEFT
  | CENTRE
  | RIGHT
deriving DecidableEq

/-- Vertical alignment of `IntroGameViewportCommand`. -/
inductive AlignmentV : Type
  | TOP
  | MIDDLE
  | BOTTOM
deriving DecidableEq

/-- The value of `VehicleID::Invalid()` (pool sentinel `0xFFFFF`). -/
def INVALID_VEHICLE : Nat := 1048575

/-- Shallow embedding of `struct IntroGameViewportCommand`
(`intro_gui.cpp` lines 120-169) with the member defaults of the source. -/
structure IntroGameViewportCommand where
  command_index : Int := 0
  position : GfxPoint := ⟨0, 0⟩
  vehicle : Nat := INVALID_VEHICLE
  delay : Nat := 0
  zoom_adjust : Int := 0
  pan_to_next : Bool := false
  align_h : AlignmentH := AlignmentH.CENTRE
  align_v : AlignmentV := AlignmentV.MIDDLE
deriving DecidableEq

instance : Inhabited IntroGameViewportCommand := ⟨{}⟩

/-- Modelled from the spec: `StringConsumer::ReadIntegerBase<uint32_t>`
(`core/string_consumer.hpp`, not part of `src/`) applied to the digit run
following a `V` flag — "vehicle-follow id via digits following `V`".
Returns the supplied default (`VehicleID::Invalid().base()`) when there
is no digit or the value does not fit `uint32_t`. -/
def readVehicleDigits (ds : List Char) : Nat :=
  if ds.isEmpty then INVALID_VEHICLE
  else if digitsVal ds ≤ U32 - 1 then digitsVal ds else INVALID_VEHICLE

/-- Fuelled worker for the flags loop; the fuel only bounds the number of
loop iterations (each iteration consumes at least one character, so
`fuel = length` never runs out). -/
def applyFlagsFuel : Nat → List Char → IntroGameViewportCommand →
    IntroGameViewportCommand
  | 0, _, vc => vc
  | _ + 1, [], vc => vc
  | n + 1, c :: rest, vc =>
    match c.toUpper with
    | '-' => applyFlagsFuel n rest { vc with zoom_adjust := 1 }
    | '+' => applyFlagsFuel n rest { vc with zoom_adjust := -1 }
    | 'T' => applyFlagsFuel n rest { vc with align_v := AlignmentV.TOP }
    | 'M' => applyFlagsFuel n rest { vc with align_v := AlignmentV.MIDDLE }
    | 'B' => applyFlagsFuel n rest { vc with align_v := AlignmentV.BOTTOM }
    | 'L' => applyFlagsFuel n rest { vc with align_h := AlignmentH.LEFT }
    | 'C' => applyFlagsFuel n rest { vc with align_h := AlignmentH.CENTRE }
    | 'R' => applyFlagsFuel n rest { vc with align_h := AlignmentH.RIGHT }
    | 'P' => applyFlagsFuel n rest { vc with pan_to_next := true }
    | 'V' =>
      let ds := rest.takeWhile isDigitChar
      applyFlagsFuel n (rest.drop ds.length)
        { vc with vehicle := readVehicleDigits ds }
    | _ => applyFlagsFuel n rest vc

/-- Shallow embedding of the flags loop of `ReadIntroGameViewportCommands`
(lines 254-271): each character of the second capture group is upcased
and dispatched; `V` additionally consumes the following digit run;
characters without a case (digits among them) are ignored. -/
def applyFlags (l : List Char) (vc : IntroGameViewportCommand) :
    IntroGameViewportCommand :=
  applyFlagsFuel l.length l vc

/-- A world sign as consumed by the parser: pool index, name and the
three map coordinates used for `RemapCoords`. -/
structure Sign where
  index : Nat
  name : String
  x : Int
  y : Int
  z : Int
deriving DecidableEq

/-- Parse of a single sign (the body of the loop in lines 234-276):
regex match, sequence index from group 1 (`ParseInteger<int>`), position
from the sign coordinates, delay in milliseconds from group 3
(`ParseInteger<uint>`, seconds times 1000 in `uint` arithmetic), then the
flags of group 2.  `remap` stands for the external `RemapCoords`. -/
def parseSignCommand (remap : Int → Int → Int → GfxPoint) (sign : Sign) :
    Option IntroGameViewportCommand :=
  match matchSignLanguage sign.name with
  | none => none
  | some (g1, g2, g3) =>
    match parseIntegerInt g1 with
    | none => none
    | some idx =>
      match parseIntegerUint g3 with
      | none => none
      | some d =>
        some (applyFlags g2
          { command_index := idx,
            position := remap sign.x sign.y sign.z,
            delay := d * 1000 % U32 })

/-- Comparator of the command sort (line 279):
`a.command_index < b.command_index`, totalised to `≤` as required for a
strict-weak-order sort. -/
def cmdLE (a b : IntroGameViewportCommand) : Prop :=
  a.command_index ≤ b.command_index

instance : DecidableRel cmdLE := fun a b =>
  Int.decLe a.command_index b.command_index

instance : IsTotal IntroGameViewportCommand cmdLE :=
  ⟨fun a b => Int.le_total a.command_index b.command_index⟩

instance : IsTrans IntroGameViewportCommand cmdLE :=
  ⟨fun _ _ _ hab hbc => le_trans hab hbc⟩

/-- Comparator of the sign-id sort (line 282): descending ids. -/
def signIdGE (a b : Nat) : Prop := b ≤ a

instance : DecidableRel signIdGE := fun a b => Nat.decLe b a

instance : IsTotal Nat signIdGE := ⟨fun a b => Nat.le_total b a⟩

instance : IsTrans Nat signIdGE := ⟨fun _ _ _ hab hbc => Nat.le_trans hbc hab⟩

/-- Shallow embedding of `ReadIntroGameViewportCommands` (lines 223-286).
The scan over `Sign::Iterate()` collects, for every sign whose name
parses, the command and the sign id (`filterMap`); afterwards the
commands are sorted ascending by sequence index and the consumed sign
ids are sorted descending (the deletion order).  `std::sort` leaves the
order of tied elements unspecified; `insertionSort` is one compliant
refinement.  Returns (command list, sign ids in deletion order). -/
def ReadIntroGameViewportCommands (remap : Int → Int → Int → GfxPoint)
    (signs : List Sign) : List IntroGameViewportCommand × List Nat :=
  let parsed := signs.filterMap
    (fun s => (parseSignCommand remap s).map (fun c => (c, s.index)))
  (List.insertionSort cmdLE (parsed.map Prod.fst),
    List.insertionSort signIdGE (parsed.map Prod.snd))

/-! ### Server list (`ServerInfo`, `NameSorter`) -/

/-- The `LandscapeType` climate enumeration. -/
inductive LandscapeType : Type
  | Temperate
  | Arctic
  | Tropic
  | Toyland
deriving DecidableEq

/-- Shallow embedding of `struct ServerInfo` (lines 97-110); the two
`double` completion ratios are modelled as `ℚ`. -/
structure ServerInfo where
  cid : Nat
  name : String
  address : String
  port : Nat
  goal : Nat
  main_goal_completion : ℚ
  sub_goal_completion : ℚ
  starting_year : Nat
  current_year : Nat
  end_year : Nat
  climateID : LandscapeType
  gid : Nat
deriving DecidableEq

/-- Fuelled worker for the natural comparison: digit runs are compared by
numeric value, other positions by character; fuel bounds the recursion
(the sum of both lengths always suffices). -/
def natCmpFuel : Nat → List Char → List Char → Int
  | 0, _, _ => 0
  | _ + 1, [], [] => 0
  | _ + 1, [], _ :: _ => -1
  | _ + 1, _ :: _, [] => 1
  | n + 1, x :: xs, y :: ys =>
    if isDigitChar x ∧ isDigitChar y then
      let dx := xs.takeWhile isDigitChar
      let dy := ys.takeWhile isDigitChar
      let vx := digitsVal (x :: dx)
      let vy := digitsVal (y :: dy)
      if vx < vy then -1
      else if vy < vx then 1
      else natCmpFuel n (xs.drop dx.length) (ys.drop dy.length)
    else if x = y then natCmpFuel n xs ys
    else if x < y then -1 else 1

/-- Modelled from the spec: `StrNaturalCompare` (`string.cpp`, not part
of `src/`) — "natural (numeric-aware) name comparison", under which
digit runs compare as numbers (so `"#2 CV"` sorts before `"#19 CV"`) and
other positions compare by character; equal strings compare equal. -/
def StrNaturalCompare (a b : String) : Int :=
  natCmpFuel (a.data.length + b.data.length) a.data b.data

/-- Conversion of a `uint32_t` value to `int` (two's-complement wrap, as
defined by the C++20 standard). -/
def toInt32 (n : Nat) : Int :=
  if n % U32 < 2147483648 then ((n % U32 : Nat) : Int)
  else ((n % U32 : Nat) : Int) - (U32 : Int)

/-- Shallow embedding of `SelectGameWindow::NameSorter` (lines 658-663):
natural name comparison, with ties broken by `r = a->port - b->port`
computed in `uint32_t` arithmetic and converted to `int`; the record `a`
sorts before `b` iff the final `r` is negative. -/
def NameSorter (a b : ServerInfo) : Bool :=
  let r : Int := StrNaturalCompare a.name b.name
  let r2 : Int := if r = 0 then toInt32 (a.port + (U32 - b.port % U32)) else r
  decide (r2 < 0)

/-! ### Command player (`SelectGameWindow::OnRealtimeTick`, lines 433-499) -/

/-- Viewport dimensions used for alignment (`vp.virtual_width/height`). -/
structure ViewportDims where
  virtual_width : Int
  virtual_height : Int
deriving DecidableEq

/-- Shallow embedding of `IntroGameViewportCommand::PositionForViewport`
(lines 149-168).  `env` stands for the external vehicle lookup composed
with `RemapCoords` (`RemapCoords(v->x_pos, v->y_pos, v->z_pos)`); the
function both returns the aligned top-left point and the command with
its `position` member updated (the C++ method mutates `this`). -/
def PositionForViewport (env : Nat → GfxPoint) (vp : ViewportDims)
    (vc : IntroGameViewportCommand) : GfxPoint × IntroGameViewportCommand :=
  let base := if vc.vehicle ≠ INVALID_VEHICLE then env vc.vehicle else vc.position
  let px :=
    match vc.align_h with
    | AlignmentH.LEFT => base.x
    | AlignmentH.CENTRE => base.x - Int.tdiv vp.virtual_width 2
    | AlignmentH.RIGHT => base.x - vp.virtual_width
  let py :=
    match vc.align_v with
    | AlignmentV.TOP => base.y
    | AlignmentV.MIDDLE => base.y - Int.tdiv vp.virtual_height 2
    | AlignmentV.BOTTOM => base.y - vp.virtual_height
  (⟨px, py⟩, { vc with position := base })

/-- Mutable per-window state of the command player (members of
`SelectGameWindow`, lines 176-184). -/
structure PlayerState where
  commands : List IntroGameViewportCommand
  cur_index : Nat
  cur_time : Nat
  mouse_idle_time : Nat
  mouse_idle_pos : GfxPoint
deriving DecidableEq

/-- The state of a freshly constructed window after
`ReadIntroGameViewportCommands` (constructor, lines 180-184 and 288):
no command selected (`SIZE_MAX`), timers zero, idle position at the
cursor. -/
def initialPlayerState (cmds : List IntroGameViewportCommand)
    (cursor : GfxPoint) : PlayerState :=
  { commands := cmds, cur_index := SIZE_MAX, cur_time := 0,
    mouse_idle_time := 0, mouse_idle_pos := cursor }

/-- Idle tracking step (lines 439-448).  Returns the new remembered
pointer position, the new idle countdown and the `suppress_panning`
flag. -/
def idleUpdate (idle_time : Nat) (idle_pos cursor : GfxPoint) (delta_ms : Nat) :
    GfxPoint × Nat × Bool :=
  if idle_pos ≠ cursor then (cursor, 2000, true)
  else if delta_ms < idle_time then (idle_pos, idle_time - delta_ms, true)
  else (idle_pos, 0, false)

/-- Command advancement step (lines 450-464).  Returns the new current
index, the new elapsed time on the current command, and the
`changed_command` flag.  In the `SIZE_MAX` branch the timer is left
untouched, exactly as in the source. -/
def advanceCommand (cmds : List IntroGameViewportCommand)
    (i time delta_ms : Nat) : Nat × Nat × Bool :=
  if cmds.length ≤ i then (0, time, true)
  else if (cmds.getD i default).delay ≤ (time + delta_ms) % U32 then
    ((i + 1) % cmds.length, 0, true)
  else (i, (time + delta_ms) % U32, false)

/-- Truncation of a rational toward zero, the behaviour of the C++
`(int)` cast applied to a `double`. -/
def truncQ (q : ℚ) : Int := if 0 ≤ q then ⌊q⌋ else ⌈q⌉

/-- Position resolution and pan interpolation (lines 479-489): resolve
the current command's position (storing the followed-vehicle update back
into the list); if it pans, also resolve the next command's position the
same way and interpolate with `t = time / delay` computed in `double`
(modelled exactly over `ℚ`; a zero delay would be a NaN in the source
and is mapped to `t = 0` here — the theorems below always assume a
positive delay).  Returns the committed point and the updated list. -/
def resolveAndPan (env : Nat → GfxPoint) (vp : ViewportDims)
    (cmds : List IntroGameViewportCommand) (idx time : Nat) :
    GfxPoint × List IntroGameViewportCommand :=
  let vc := cmds.getD idx default
  let pr := PositionForViewport env vp vc
  let cmds1 := cmds.set idx pr.2
  if vc.pan_to_next then
    let nidx := (idx + 1) % cmds.length
    let pr2 := PositionForViewport env vp (cmds1.getD nidx default)
    let cmds2 := cmds1.set nidx pr2.2
    let t : ℚ := if vc.delay = 0 then 0 else (time : ℚ) / ((vc.delay : Nat) : ℚ)
    (⟨pr.1.x + truncQ (t * (((pr2.1.x - pr.1.x : Int)) : ℚ)),
      pr.1.y + truncQ (t * (((pr2.1.y - pr.1.y : Int)) : ℚ))⟩, cmds2)
  else (pr.1, cmds1)

/-- The state as updated by the idle-tracking and advancement steps of a
tick on a non-empty command list (the assignments of lines 440-463,
performed before any early return). -/
def tickState (st : PlayerState) (delta_ms : Nat) (cursor : GfxPoint) :
    PlayerState :=
  { commands := st.commands,
    cur_index := (advanceCommand st.commands st.cur_index st.cur_time delta_ms).1,
    cur_time := (advanceCommand st.commands st.cur_index st.cur_time delta_ms).2.1,
    mouse_idle_time := (idleUpdate st.mouse_idle_time st.mouse_idle_pos cursor delta_ms).2.1,
    mouse_idle_pos := (idleUpdate st.mouse_idle_time st.mouse_idle_pos cursor delta_ms).1 }

/-- Shallow embedding of `SelectGameWindow::OnRealtimeTick`
(lines 433-499).  Inputs: the external vehicle lookup `env`, the main
viewport dimensions, the previous state, the elapsed milliseconds and
the current cursor position (`_cursor.pos`).  Returns the new state and
the scroll position committed to the main viewport (`none` when the tick
returns without touching the camera).  The `FixTitleGameZoom` call is an
external zoom side effect carrying no state modelled here. -/
def OnRealtimeTick (env : Nat → GfxPoint) (vp : ViewportDims)
    (st : PlayerState) (delta_ms : Nat) (cursor : GfxPoint) :
    PlayerState × Option GfxPoint :=
  if st.commands = [] then (st, none)
  else if (advanceCommand st.commands st.cur_index st.cur_time delta_ms).2.2 = false ∧
      (st.commands.getD (advanceCommand st.commands st.cur_index st.cur_time delta_ms).1
        default).pan_to_next = false ∧
      (st.commands.getD (advanceCommand st.commands st.cur_index st.cur_time delta_ms).1
        default).vehicle = INVALID_VEHICLE then
    (tickState st delta_ms cursor, none)
  else if (advanceCommand st.commands st.cur_index st.cur_time delta_ms).2.2 = false ∧
      (idleUpdate st.mouse_idle_time st.mouse_idle_pos cursor delta_ms).2.2 = true then
    (tickState st delta_ms cursor, none)
  else
    ({ tickState st delta_ms cursor with
        commands :=
          if st.commands.length = 1 ∧
              (st.commands.getD (advanceCommand st.commands st.cur_index st.cur_time delta_ms).1
                default).vehicle = INVALID_VEHICLE then []
          else (resolveAndPan env vp st.commands
              (advanceCommand st.commands st.cur_index st.cur_time delta_ms).1
              (advanceCommand st.commands st.cur_index st.cur_time delta_ms).2.1).2 },
      some (resolveAndPan env vp st.commands
          (advanceCommand st.commands st.cur_index st.cur_time delta_ms).1
          (advanceCommand st.commands st.cur_index st.cur_time delta_ms).2.1).1)

/-! ### Claim theorems -/

/-- C1 (code bug evaluation): for a bar rectangle of pixel width 200 and
ratio `0.5` the computed done-width `middle` is exactly `100`, so the
guard `if (middle != 100)` of line 87 — which compares the pixel count
against the literal percentage `100` — skips the "not-done" fill
entirely: only the "done" half `[0,99]` is filled and the remaining 100
pixels are not drawn, contradicting the claimed split into a done and a
not-done segment. -/
theorem C1_drawPercentBar_half_width200_omits_notdone :
    drawPercentBar ⟨0, 0, 200, 20⟩ (1/2) = [(⟨0, 0, 99, 20⟩, true)] := by
  have h1 : ((200 : Int) - 0).emod (U32 : Int) = 200 := by decide
  simp only [drawPercentBar, h1]
  have h2 : Int.toNat 200 = 200 := rfl
  rw [h2]
  have h3 : (⌊((200 : Nat) : ℚ) * (1/2)⌋ : Int) = 100 := by norm_num
  rw [h3]
  decide

/-- C2 (counterexample): the flag character `-` does NOT set the zoom
adjustment to `-1`; line 260 sets it to `+1` (and `+` sets `-1`),
refuting the claimed `-`/`+` ↦ `-1`/`+1` mapping. -/
theorem C2_counterexample_minus_sets_plus_one :
    (applyFlags ['-'] {}).zoom_adjust = 1 ∧
      ¬ (applyFlags ['-'] {}).zoom_adjust = -1 := by decide

/-- C2 (amended): when parsing a marker's flags, the flag character `-`
sets the draft command's zoom adjustment to `+1` and the flag character
`+` sets it to `-1` (zoom levels grow when zooming out, so `-` means
"zoom out one level"), on any draft command. -/
theorem C2_flag_zoom_mapping (vc : IntroGameViewportCommand) :
    applyFlags ['-'] vc = { vc with zoom_adjust := 1 } ∧
      applyFlags ['+'] vc = { vc with zoom_adjust := -1 } := by
  constructor <;> rfl

/-- C10: the marker name `"T 1 30"` — prefix `T` and two integers, no
flag letters at all — is still accepted: backtracking shortens the final
greedy digit run so that the digit `3` satisfies the mandatory flags
group (where it is silently ignored by the flag switch) and only the
suffix `0` is captured as the delay.  The parse yields sequence index 1
and delay `0` seconds (all other fields at their defaults). -/
theorem C10_digits_satisfy_flags_group :
    matchSignLanguage "T 1 30" = some (['1'], ['3'], ['0']) ∧
      (∀ remap : Int → Int → Int → GfxPoint, ∀ i : Nat, ∀ x y z : Int,
        parseSignCommand remap ⟨i, "T 1 30", x, y, z⟩ =
          some { command_index := 1, position := remap x y z, delay := 0 }) :=
  ⟨by decide, fun _ _ _ _ _ => rfl⟩

/-! ### Helper lemmas about the player components -/

theorem advanceCommand_fst_lt (cmds : List IntroGameViewportCommand)
    (i time delta : Nat) (h : cmds ≠ []) :
    (advanceCommand cmds i time delta).1 < cmds.length := by
  have hlen : 0 < cmds.length := List.length_pos.mpr h
  unfold advanceCommand
  split_ifs with h1 h2
  · exact hlen
  · exact Nat.mod_lt _ hlen
  · simp only
    omega

theorem advanceCommand_of_not_elapsed (cmds : List IntroGameViewportCommand)
    (i time delta : Nat) (hi : i < cmds.length)
    (ht : (time + delta) % U32 < (cmds.getD i default).delay) :
    advanceCommand cmds i time delta = (i, (time + delta) % U32, false) := by
  unfold advanceCommand
  rw [if_neg (by omega), if_neg (by omega)]

theorem advanceCommand_changed (cmds : List IntroGameViewportCommand)
    (i time delta : Nat)
    (h : cmds.length ≤ i ∨ (cmds.getD i default).delay ≤ (time + delta) % U32) :
    (advanceCommand cmds i time delta).2.2 = true := by
  unfold advanceCommand
  rcases h with h | h
  · rw [if_pos h]
  · split_ifs <;> rfl

theorem idleUpdate_time (it : Nat) (ip cur : GfxPoint) (d : Nat) :
    (idleUpdate it ip cur d).2.1 = if ip ≠ cur then 2000 else it - d := by
  unfold idleUpdate
  split_ifs with h1 h2
  · rfl
  · rfl
  · show (0 : Nat) = it - d
    omega

theorem idleUpdate_pos (it : Nat) (ip cur : GfxPoint) (d : Nat) :
    (idleUpdate it ip cur d).1 = if ip ≠ cur then cur else ip := by
  unfold idleUpdate
  split_ifs <;> rfl

theorem idleUpdate_suppress (it : Nat) (ip cur : GfxPoint) (d : Nat) :
    (idleUpdate it ip cur d).2.2 = true ↔ (ip ≠ cur ∨ d < it) := by
  unfold idleUpdate
  split_ifs with h1 h2
  · simp [h1]
  · simp [h1, h2]
  · simp [h1, h2]

/-- C3: if the command list holds exactly one command and that command
does not follow a vehicle, then any tick that commits a camera position
(in particular the first tick, which always executes the freshly
selected command) clears the command list; and a tick on an empty list
returns the state untouched with no camera write, so the camera is never
moved again. -/
theorem C3_single_command_runs_once (env : Nat → GfxPoint) (vp : ViewportDims)
    (st : PlayerState) (delta : Nat) (cursor : GfxPoint)
    (c : IntroGameViewportCommand)
    (hc : st.commands = [c]) (hv : c.vehicle = INVALID_VEHICLE) :
    ((OnRealtimeTick env vp st delta cursor).2.isSome →
      (OnRealtimeTick env vp st delta cursor).1.commands = []) ∧
    (∀ st2 : PlayerState, st2.commands = [] →
      OnRealtimeTick env vp st2 delta cursor = (st2, none)) := by
  constructor
  · intro hsome
    have hne : st.commands ≠ [] := by rw [hc]; exact List.cons_ne_nil _ _
    have hlt := advanceCommand_fst_lt st.commands st.cur_index st.cur_time delta hne
    have hlen1 : st.commands.length = 1 := by rw [hc]; rfl
    have h0 : (advanceCommand st.commands st.cur_index st.cur_time delta).1 = 0 := by
      rw [hlen1] at hlt
      omega
    have hvc : (st.commands.getD
        (advanceCommand st.commands st.cur_index st.cur_time delta).1
        default).vehicle = INVALID_VEHICLE := by
      rw [h0, hc]
      simpa using hv
    simp only [OnRealtimeTick] at hsome ⊢
    rw [if_neg hne] at hsome ⊢
    split_ifs at hsome ⊢ with h1 h2 h3
    · simp at hsome
    · simp at hsome
    · rfl
    · exact absurd ⟨hlen1, hvc⟩ h3
  · intro st2 h2
    simp only [OnRealtimeTick]
    rw [if_pos h2]

/-- C3 witness: a freshly constructed window with the single default
(non-following) command executes it on the first tick — the camera is
committed — and the command list is empty afterwards. -/
theorem C3_witness :
    (initialPlayerState [{}] ⟨0, 0⟩).commands = [({} : IntroGameViewportCommand)] ∧
    ({} : IntroGameViewportCommand).vehicle = INVALID_VEHICLE ∧
    (OnRealtimeTick (fun _ => ⟨0, 0⟩) ⟨640, 480⟩
        (initialPlayerState [{}] ⟨0, 0⟩) 5 ⟨0, 0⟩).2.isSome = true ∧
    (OnRealtimeTick (fun _ => ⟨0, 0⟩) ⟨640, 480⟩
        (initialPlayerState [{}] ⟨0, 0⟩) 5 ⟨0, 0⟩).1.commands = [] :=
  ⟨rfl, rfl, by decide,
    (C3_single_command_runs_once (fun _ => ⟨0, 0⟩) ⟨640, 480⟩
        (initialPlayerState [{}] ⟨0, 0⟩) 5 ⟨0, 0⟩ {} rfl rfl).1 (by decide)⟩

/-- C5: idle tracking and pan suppression.  On every tick on a non-empty
command list: (1) the idle countdown is reset to 2000 ms when the
pointer moved and otherwise decremented by the elapsed time, floored at
0 (`Nat` subtraction); (2) the remembered pointer position is updated
exactly when the pointer moved; (3) a tick that does not change the
current command (current index valid, accumulated time below the delay),
whose command pans or follows a vehicle, and whose post-update countdown
is positive (pointer moved, or `delta < countdown`) commits no camera
position and leaves the command list untouched; (4) a tick that changes
the current command (index out of range, or delay reached) always
commits a camera position, regardless of the countdown. -/
theorem C5_idle_suppression (env : Nat → GfxPoint) (vp : ViewportDims)
    (st : PlayerState) (delta : Nat) (cursor : GfxPoint)
    (hne : st.commands ≠ []) :
    ((OnRealtimeTick env vp st delta cursor).1.mouse_idle_time =
        if st.mouse_idle_pos ≠ cursor then 2000 else st.mouse_idle_time - delta) ∧
    ((OnRealtimeTick env vp st delta cursor).1.mouse_idle_pos =
        if st.mouse_idle_pos ≠ cursor then cursor else st.mouse_idle_pos) ∧
    (∀ c : IntroGameViewportCommand, st.cur_index < st.commands.length →
      st.commands.getD st.cur_index default = c →
      (st.cur_time + delta) % U32 < c.delay →
      (c.pan_to_next = true ∨ c.vehicle ≠ INVALID_VEHICLE) →
      (st.mouse_idle_pos ≠ cursor ∨ delta < st.mouse_idle_time) →
      (OnRealtimeTick env vp st delta cursor).2 = none ∧
        (OnRealtimeTick env vp st delta cursor).1.commands = st.commands) ∧
    ((st.commands.length ≤ st.cur_index ∨
        (st.commands.getD st.cur_index default).delay ≤ (st.cur_time + delta) % U32) →
      (OnRealtimeTick env vp st delta cursor).2.isSome = true) := by
  have hfields : (OnRealtimeTick env vp st delta cursor).1.mouse_idle_time =
        (idleUpdate st.mouse_idle_time st.mouse_idle_pos cursor delta).2.1 ∧
      (OnRealtimeTick env vp st delta cursor).1.mouse_idle_pos =
        (idleUpdate st.mouse_idle_time st.mouse_idle_pos cursor delta).1 := by
    unfold OnRealtimeTick
    rw [if_neg hne]
    split_ifs <;> exact ⟨rfl, rfl⟩
  refine ⟨?_, ?_, ?_, ?_⟩
  · rw [hfields.1]
    exact idleUpdate_time _ _ _ _
  · rw [hfields.2]
    exact idleUpdate_pos _ _ _ _
  · intro c hi hcme ht hpf hsup
    have hadv := advanceCommand_of_not_elapsed st.commands st.cur_index
      st.cur_time delta hi (hcme ▸ ht)
    unfold OnRealtimeTick
    rw [if_neg hne]
    rw [if_neg, if_pos]
    · exact ⟨rfl, rfl⟩
    · refine ⟨by rw [hadv], ?_⟩
      exact (idleUpdate_suppress _ _ _ _).mpr hsup
    · rw [hadv, hcme]
      rcases hpf with h | h
      · intro hand
        rw [h] at hand
        exact absurd hand.2.1 (by simp)
      · intro hand
        exact absurd hand.2.2 h
  · intro hch
    have hadv := advanceCommand_changed st.commands st.cur_index st.cur_time delta hch
    unfold OnRealtimeTick
    rw [if_neg hne]
    rw [if_neg (by rw [hadv]; simp), if_neg (by rw [hadv]; simp)]
    rfl

/-- C5 witness: with a panning current command (delay 100 ms, 10 ms
elapsed), an unmoved pointer and 50 ms of idle countdown left, the tick
commits nothing and decrements the countdown to 40; with the sentinel
index (command change), the tick commits a camera position. -/
theorem C5_witness :
    (OnRealtimeTick (fun _ => ⟨0, 0⟩) ⟨640, 480⟩
        ⟨[{ pan_to_next := true, delay := 100 }], 0, 0, 50, ⟨0, 0⟩⟩ 10 ⟨0, 0⟩).2 = none ∧
    (OnRealtimeTick (fun _ => ⟨0, 0⟩) ⟨640, 480⟩
        ⟨[{ pan_to_next := true, delay := 100 }], 0, 0, 50, ⟨0, 0⟩⟩ 10 ⟨0, 0⟩).1.mouse_idle_time = 40 ∧
    (OnRealtimeTick (fun _ => ⟨0, 0⟩) ⟨640, 480⟩
        (initialPlayerState [{}] ⟨0, 0⟩) 10 ⟨0, 0⟩).2.isSome = true := by
  refine ⟨?_, ?_, ?_⟩
  · exact ((C5_idle_suppression (fun _ => ⟨0, 0⟩) ⟨640, 480⟩
        ⟨[{ pan_to_next := true, delay := 100 }], 0, 0, 50, ⟨0, 0⟩⟩ 10 ⟨0, 0⟩
        (by decide)).2.2.1 { pan_to_next := true, delay := 100 }
        (by decide) (by decide) (by decide) (Or.inl rfl) (Or.inr (by decide))).1
  · rw [(C5_idle_suppression (fun _ => ⟨0, 0⟩) ⟨640, 480⟩
        ⟨[{ pan_to_next := true, delay := 100 }], 0, 0, 50, ⟨0, 0⟩⟩ 10 ⟨0, 0⟩
        (by decide)).1]
    decide
  · exact (C5_idle_suppression (fun _ => ⟨0, 0⟩) ⟨640, 480⟩
        (initialPlayerState [{}] ⟨0, 0⟩) 10 ⟨0, 0⟩ (by decide)).2.2.2
        (Or.inl (by decide))

theorem truncQ_zero : truncQ 0 = 0 := by
  unfold truncQ
  rw [if_pos le_rfl]
  exact Int.floor_zero

theorem abs_truncQ_sub_lt_one (q : ℚ) : |((truncQ q : Int) : ℚ) - q| < 1 := by
  unfold truncQ
  split_ifs with h
  · rw [abs_sub_lt_iff]
    constructor
    · have := Int.floor_le q
      linarith
    · have := Int.lt_floor_add_one q
      linarith
  · rw [abs_sub_lt_iff]
    constructor
    · have := Int.ceil_lt_add_one q
      linarith
    · have := Int.le_ceil q
      linarith

theorem succ_mod_ne_self {i n : Nat} (hi : i < n) (hn : 2 ≤ n) :
    (i + 1) % n ≠ i := by
  rcases Nat.lt_or_ge (i + 1) n with h | h
  · rw [Nat.mod_eq_of_lt h]
    omega
  · have h1 : i + 1 = n := by omega
    rw [h1, Nat.mod_self]
    omega

theorem getD_set_ne (l : List IntroGameViewportCommand) (i j : Nat)
    (a d : IntroGameViewportCommand) (h : i ≠ j) :
    (l.set i a).getD j d = l.getD j d := by
  simp [List.getD_eq_getElem?_getD, List.getElem?_set_ne h]

/-- Characterisation of `resolveAndPan` for a panning current command
with at least two commands in the list: the committed point is the
current command's resolved position plus the truncated interpolation
step toward the next command's resolved position. -/
theorem resolveAndPan_pan (env : Nat → GfxPoint) (vp : ViewportDims)
    (cmds : List IntroGameViewportCommand) (idx time : Nat)
    (c cnext : IntroGameViewportCommand)
    (hc : cmds.getD idx default = c)
    (hpan : c.pan_to_next = true)
    (hd : c.delay ≠ 0)
    (hne : (idx + 1) % cmds.length ≠ idx)
    (hnext : cmds.getD ((idx + 1) % cmds.length) default = cnext) :
    (resolveAndPan env vp cmds idx time).1 =
      ⟨(PositionForViewport env vp c).1.x +
          truncQ (((time : Nat) : ℚ) / ((c.delay : Nat) : ℚ) *
            (((PositionForViewport env vp cnext).1.x -
              (PositionForViewport env vp c).1.x : Int) : ℚ)),
        (PositionForViewport env vp c).1.y +
          truncQ (((time : Nat) : ℚ) / ((c.delay : Nat) : ℚ) *
            (((PositionForViewport env vp cnext).1.y -
              (PositionForViewport env vp c).1.y : Int) : ℚ))⟩ := by
  unfold resolveAndPan
  rw [hc, if_pos hpan]
  have hset : ((cmds.set idx (PositionForViewport env vp c).2).getD
      ((idx + 1) % cmds.length) default) = cnext := by
    rw [getD_set_ne _ _ _ _ _ (fun hh => hne hh.symm), hnext]
  simp only [hset, if_neg hd]

/-- C4: for a current panning command (positive delay, at least two
commands, camera update not suppressed, command not yet elapsed), the
committed camera position is the linear interpolation — truncated to
integer pixels by the `(int)` casts of lines 487-488 — between the
current command's resolved position and the next command's resolved
position with parameter `t = elapsed / delay`; at `t = 0` the committed
position equals the current command's resolved position exactly, and in
general each committed coordinate differs from the exact real
interpolation by less than one unit (so the position approaches the next
command's resolved position as `t` approaches 1). -/
theorem C4_pan_position_interpolates (env : Nat → GfxPoint) (vp : ViewportDims)
    (st : PlayerState) (delta : Nat) (cursor : GfxPoint)
    (c cnext : IntroGameViewportCommand)
    (hi : st.cur_index < st.commands.length)
    (hc : st.commands.getD st.cur_index default = c)
    (hpan : c.pan_to_next = true)
    (hd : 0 < c.delay)
    (hn2 : 2 ≤ st.commands.length)
    (hnext : st.commands.getD ((st.cur_index + 1) % st.commands.length) default = cnext)
    (hwrap : st.cur_time + delta < U32)
    (ht : st.cur_time + delta < c.delay)
    (hmouse : st.mouse_idle_pos = cursor)
    (hidle : st.mouse_idle_time ≤ delta) :
    (OnRealtimeTick env vp st delta cursor).2 =
      some ⟨(PositionForViewport env vp c).1.x +
          truncQ (((st.cur_time + delta : Nat) : ℚ) / ((c.delay : Nat) : ℚ) *
            (((PositionForViewport env vp cnext).1.x -
              (PositionForViewport env vp c).1.x : Int) : ℚ)),
        (PositionForViewport env vp c).1.y +
          truncQ (((st.cur_time + delta : Nat) : ℚ) / ((c.delay : Nat) : ℚ) *
            (((PositionForViewport env vp cnext).1.y -
              (PositionForViewport env vp c).1.y : Int) : ℚ))⟩ ∧
    (st.cur_time + delta = 0 →
      (OnRealtimeTick env vp st delta cursor).2 =
        some (PositionForViewport env vp c).1) ∧
    (∀ q : ℚ,
      |(((PositionForViewport env vp c).1.x + truncQ q : Int) : ℚ) -
        (((PositionForViewport env vp c).1.x : Int) : ℚ) - q| < 1) := by
  have hne : st.commands ≠ [] := by
    intro h
    rw [h] at hi
    simp at hi
  have hmod : (st.cur_time + delta) % U32 = st.cur_time + delta :=
    Nat.mod_eq_of_lt hwrap
  have hadv := advanceCommand_of_not_elapsed st.commands st.cur_index
    st.cur_time delta hi (by rw [hc, hmod]; exact ht)
  have hsupf : (idleUpdate st.mouse_idle_time st.mouse_idle_pos cursor delta).2.2 = false := by
    unfold idleUpdate
    rw [if_neg (fun hh => hh hmouse), if_neg (by omega)]
  have hmain : (OnRealtimeTick env vp st delta cursor).2 =
      some ⟨(PositionForViewport env vp c).1.x +
          truncQ (((st.cur_time + delta : Nat) : ℚ) / ((c.delay : Nat) : ℚ) *
            (((PositionForViewport env vp cnext).1.x -
              (PositionForViewport env vp c).1.x : Int) : ℚ)),
        (PositionForViewport env vp c).1.y +
          truncQ (((st.cur_time + delta : Nat) : ℚ) / ((c.delay : Nat) : ℚ) *
            (((PositionForViewport env vp cnext).1.y -
              (PositionForViewport env vp c).1.y : Int) : ℚ))⟩ := by
    unfold OnRealtimeTick
    rw [if_neg hne]
    rw [if_neg (by
          simp only [hadv]
          intro hand
          have h2 := hand.2.1
          rw [hc, hpan] at h2
          exact absurd h2 (by simp)),
        if_neg (by
          simp only [hadv, hsupf]
          intro hand
          exact absurd hand.2 (by simp))]
    simp only [hadv, hmod]
    rw [resolveAndPan_pan env vp st.commands st.cur_index (st.cur_time + delta)
      c cnext hc hpan (by omega) (succ_mod_ne_self hi hn2) hnext]
  refine ⟨hmain, ?_, ?_⟩
  · intro h0
    rw [hmain, h0]
    norm_num [truncQ_zero]
  · intro q
    have h := abs_truncQ_sub_lt_one q
    have hcast : (((PositionForViewport env vp c).1.x + truncQ q : Int) : ℚ) =
        (((PositionForViewport env vp c).1.x : Int) : ℚ) + ((truncQ q : Int) : ℚ) := by
      push_cast
      ring
    rw [hcast]
    have : (((PositionForViewport env vp c).1.x : Int) : ℚ) + ((truncQ q : Int) : ℚ) -
        (((PositionForViewport env vp c).1.x : Int) : ℚ) - q =
        ((truncQ q : Int) : ℚ) - q := by ring
    rw [this]
    exact h

/-- C4 witness: two commands at resolved positions `(0,0)` and `(8,4)`,
pan enabled, delay 10 ms, 5 ms elapsed: the committed camera position is
the midpoint `(4,2)`. -/
theorem C4_witness :
    (OnRealtimeTick (fun _ => ⟨0, 0⟩) ⟨640, 480⟩
        ⟨[{ pan_to_next := true, delay := 10, align_h := AlignmentH.LEFT,
            align_v := AlignmentV.TOP },
          { position := ⟨8, 4⟩, align_h := AlignmentH.LEFT,
            align_v := AlignmentV.TOP }],
          0, 0, 0, ⟨0, 0⟩⟩ 5 ⟨0, 0⟩).2 = some ⟨4, 2⟩ := by
  rw [(C4_pan_position_interpolates (fun _ => ⟨0, 0⟩) ⟨640, 480⟩
      ⟨[{ pan_to_next := true, delay := 10, align_h := AlignmentH.LEFT,
          align_v := AlignmentV.TOP },
        { position := ⟨8, 4⟩, align_h := AlignmentH.LEFT,
          align_v := AlignmentV.TOP }],
        0, 0, 0, ⟨0, 0⟩⟩ 5 ⟨0, 0⟩
      { pan_to_next := true, delay := 10, align_h := AlignmentH.LEFT,
        align_v := AlignmentV.TOP }
      { position := ⟨8, 4⟩, align_h := AlignmentH.LEFT,
        align_v := AlignmentV.TOP }
      (by decide) rfl rfl (by decide) (by decide) rfl (by decide) (by decide)
      rfl (by decide)).1]
  have h0 : (PositionForViewport (fun _ => (⟨0, 0⟩ : GfxPoint)) ⟨640, 480⟩
      { pan_to_next := true, delay := 10, align_h := AlignmentH.LEFT,
        align_v := AlignmentV.TOP }).1 = ⟨0, 0⟩ := rfl
  have h1 : (PositionForViewport (fun _ => (⟨0, 0⟩ : GfxPoint)) ⟨640, 480⟩
      { position := ⟨8, 4⟩, align_h := AlignmentH.LEFT,
        align_v := AlignmentV.TOP }).1 = ⟨8, 4⟩ := rfl
  rw [h0, h1]
  norm_num [truncQ]

/-- The command list is ascending in sequence index. -/
def sortedByIndex (l : List IntroGameViewportCommand) : Prop := l.Pairwise cmdLE

/-- The state invariant of claim C8: the command list is sorted
ascending by sequence index, and a selected current command (index not
the `SIZE_MAX` sentinel) on a non-empty list is in range. -/
def PlayerInvariant (st : PlayerState) : Prop :=
  sortedByIndex st.commands ∧
    (st.cur_index ≠ SIZE_MAX → st.commands ≠ [] →
      st.cur_index < st.commands.length)

theorem map_commandIndex_set (l : List IntroGameViewportCommand) :
    ∀ (i : Nat) (c : IntroGameViewportCommand),
    c.command_index = (l.getD i default).command_index →
    (l.set i c).map (fun x => x.command_index) =
      l.map (fun x => x.command_index) := by
  induction l with
  | nil => intro i c _; rfl
  | cons a l ih =>
    intro i c h
    cases i with
    | zero =>
      rw [List.getD_cons_zero] at h
      simp [List.set, h]
    | succ n =>
      rw [List.getD_cons_succ] at h
      simp only [List.set, List.map_cons]
      rw [ih n c h]

theorem sortedByIndex_iff_map (l : List IntroGameViewportCommand) :
    sortedByIndex l ↔
      (l.map (fun x => x.command_index)).Pairwise (· ≤ ·) := by
  unfold sortedByIndex cmdLE
  exact (List.pairwise_map).symm

theorem sortedByIndex_set (l : List IntroGameViewportCommand) (i : Nat)
    (c : IntroGameViewportCommand)
    (h : c.command_index = (l.getD i default).command_index)
    (hs : sortedByIndex l) : sortedByIndex (l.set i c) := by
  rw [sortedByIndex_iff_map] at hs ⊢
  rw [map_commandIndex_set l i c h]
  exact hs

theorem resolveAndPan_sorted (env : Nat → GfxPoint) (vp : ViewportDims)
    (cmds : List IntroGameViewportCommand) (idx time : Nat)
    (hs : sortedByIndex cmds) :
    sortedByIndex (resolveAndPan env vp cmds idx time).2 ∧
      (resolveAndPan env vp cmds idx time).2.length = cmds.length := by
  have h1 : sortedByIndex
      (cmds.set idx (PositionForViewport env vp (cmds.getD idx default)).2) :=
    sortedByIndex_set cmds idx _ rfl hs
  have h2 : sortedByIndex
      ((cmds.set idx (PositionForViewport env vp (cmds.getD idx default)).2).set
        ((idx + 1) % cmds.length)
        (PositionForViewport env vp
          ((cmds.set idx (PositionForViewport env vp (cmds.getD idx default)).2).getD
            ((idx + 1) % cmds.length) default)).2) :=
    sortedByIndex_set _ _ _ rfl h1
  simp only [resolveAndPan]
  split_ifs with h hd
  · exact ⟨h2, by simp⟩
  · exact ⟨h2, by simp⟩
  · exact ⟨h1, by simp⟩

/-- C8: the parser returns the command list sorted ascending by sequence
index (for any marker iteration order); the freshly constructed window
state (current index at the `SIZE_MAX` sentinel) satisfies the state
invariant; and every tick preserves the invariant — sortedness of the
command list together with the bound "a selected current command index
on a non-empty list is below the list's size". -/
theorem C8_sorted_and_index_invariant :
    (∀ (remap : Int → Int → Int → GfxPoint) (signs : List Sign),
      sortedByIndex (ReadIntroGameViewportCommands remap signs).1) ∧
    (∀ (remap : Int → Int → Int → GfxPoint) (signs : List Sign)
        (cursor : GfxPoint),
      PlayerInvariant
        (initialPlayerState (ReadIntroGameViewportCommands remap signs).1 cursor)) ∧
    (∀ (env : Nat → GfxPoint) (vp : ViewportDims) (st : PlayerState)
        (delta : Nat) (cursor : GfxPoint),
      PlayerInvariant st →
      PlayerInvariant (OnRealtimeTick env vp st delta cursor).1) := by
  refine ⟨fun remap signs => List.sorted_insertionSort cmdLE _,
    fun remap signs cursor =>
      ⟨List.sorted_insertionSort cmdLE _, fun h => absurd rfl h⟩, ?_⟩
  intro env vp st delta cursor hinv
  obtain ⟨hs, hidx⟩ := hinv
  by_cases hemp : st.commands = []
  · have : OnRealtimeTick env vp st delta cursor = (st, none) := by
      unfold OnRealtimeTick
      rw [if_pos hemp]
    rw [this]
    exact ⟨hs, hidx⟩
  · have hlt := advanceCommand_fst_lt st.commands st.cur_index st.cur_time
      delta hemp
    unfold OnRealtimeTick
    rw [if_neg hemp]
    split_ifs with h1 h2 h3
    · exact ⟨hs, fun _ _ => hlt⟩
    · exact ⟨hs, fun _ _ => hlt⟩
    · refine ⟨List.Pairwise.nil, fun _ hne2 => absurd rfl hne2⟩
    · obtain ⟨hsr, hlen⟩ := resolveAndPan_sorted env vp st.commands
        (advanceCommand st.commands st.cur_index st.cur_time delta).1
        (advanceCommand st.commands st.cur_index st.cur_time delta).2.1 hs
      refine ⟨hsr, fun _ _ => ?_⟩
      simp only
      rw [hlen]
      exact hlt

/-- C8 witness: two out-of-order markers parse into a sorted command
list, and a concrete tick preserves the invariant. -/
theorem C8_witness :
    sortedByIndex (ReadIntroGameViewportCommands (fun _ _ _ => ⟨0, 0⟩)
      [⟨1, "T 2 C 3", 0, 0, 0⟩, ⟨2, "T 1 C 3", 0, 0, 0⟩]).1 ∧
    PlayerInvariant (OnRealtimeTick (fun _ => ⟨0, 0⟩) ⟨640, 480⟩
      ⟨[{ delay := 100 }, { command_index := 5, delay := 50 }],
        0, 0, 0, ⟨0, 0⟩⟩ 10 ⟨0, 0⟩).1 :=
  ⟨C8_sorted_and_index_invariant.1 _ _,
    C8_sorted_and_index_invariant.2.2 _ _ _ _ _
      ⟨by unfold sortedByIndex; decide, fun _ _ => by decide⟩⟩

/-! ### Parser output lemmas (claims C6, C7) -/

theorem ids_eq (remap : Int → Int → Int → GfxPoint) (signs : List Sign) :
    ((signs.filterMap
        (fun s => (parseSignCommand remap s).map (fun c => (c, s.index)))).map
      Prod.snd) =
      signs.filterMap
        (fun s => (parseSignCommand remap s).map (fun _ => s.index)) := by
  rw [List.map_filterMap]
  congr 1
  funext s
  cases parseSignCommand remap s <;> rfl

theorem ids_sublist (remap : Int → Int → Int → GfxPoint) (signs : List Sign) :
    (signs.filterMap
        (fun s => (parseSignCommand remap s).map (fun _ => s.index))).Sublist
      (signs.map Sign.index) := by
  induction signs with
  | nil => simp
  | cons a l ih =>
    rw [List.filterMap_cons, List.map_cons]
    cases hpa : parseSignCommand remap a with
    | none => exact ih.cons _
    | some c => exact ih.cons₂ _

theorem mem_deletions_sub (remap : Int → Int → Int → GfxPoint)
    (signs : List Sign) (i : Nat) :
    i ∈ (ReadIntroGameViewportCommands remap signs).2 →
      i ∈ signs.map Sign.index := by
  intro h
  simp only [ReadIntroGameViewportCommands] at h
  have hperm := List.perm_insertionSort signIdGE
    ((signs.filterMap
      (fun s => (parseSignCommand remap s).map (fun c => (c, s.index)))).map
      Prod.snd)
  have h2 := hperm.mem_iff.mp h
  rw [ids_eq] at h2
  exact (ids_sublist remap signs).subset h2

/-- C6: a marker whose name fails the regex, or whose sequence-index or
delay integer fails to parse (`parseSignCommand` returns `none`),
contributes nothing: removing it from the sign list leaves both the
command list and the deletion list unchanged, and (for distinct sign
ids) its id is never in the deletion list. -/
theorem C6_failed_marker_contributes_nothing
    (remap : Int → Int → Int → GfxPoint) (l1 l2 : List Sign) (s : Sign)
    (h : parseSignCommand remap s = none) :
    ReadIntroGameViewportCommands remap (l1 ++ s :: l2) =
      ReadIntroGameViewportCommands remap (l1 ++ l2) ∧
    (((l1 ++ s :: l2).map Sign.index).Nodup →
      s.index ∉ (ReadIntroGameViewportCommands remap (l1 ++ s :: l2)).2) := by
  have heq : ReadIntroGameViewportCommands remap (l1 ++ s :: l2) =
      ReadIntroGameViewportCommands remap (l1 ++ l2) := by
    simp only [ReadIntroGameViewportCommands, List.filterMap_append,
      List.filterMap_cons, h]
    rfl
  refine ⟨heq, fun hnd hmem => ?_⟩
  rw [heq] at hmem
  have hsub := mem_deletions_sub remap (l1 ++ l2) s.index hmem
  rw [List.map_append, List.mem_append] at hsub
  rw [List.map_append, List.map_cons, List.nodup_append] at hnd
  rcases hsub with h1 | h1
  · exact hnd.2.2 h1 (List.mem_cons_self _ _)
  · exact (List.nodup_cons.mp hnd.2.1).1 h1

/-- C6 witness: the marker named `"hello"` fails the grammar; with one
well-formed companion marker, removing it changes nothing and its id 5
is not deleted. -/
theorem C6_witness :
    parseSignCommand (fun _ _ _ => ⟨0, 0⟩) ⟨5, "hello", 0, 0, 0⟩ = none ∧
    ReadIntroGameViewportCommands (fun _ _ _ => ⟨0, 0⟩)
        ([] ++ ⟨5, "hello", 0, 0, 0⟩ :: [⟨3, "T 1 C 2", 1, 2, 3⟩]) =
      ReadIntroGameViewportCommands (fun _ _ _ => ⟨0, 0⟩)
        ([] ++ [⟨3, "T 1 C 2", 1, 2, 3⟩]) ∧
    (⟨5, "hello", 0, 0, 0⟩ : Sign).index ∉
      (ReadIntroGameViewportCommands (fun _ _ _ => ⟨0, 0⟩)
        ([] ++ ⟨5, "hello", 0, 0, 0⟩ :: [⟨3, "T 1 C 2", 1, 2, 3⟩])).2 :=
  ⟨by decide,
    (C6_failed_marker_contributes_nothing (fun _ _ _ => ⟨0, 0⟩) []
      [⟨3, "T 1 C 2", 1, 2, 3⟩] ⟨5, "hello", 0, 0, 0⟩ (by decide)).1,
    (C6_failed_marker_contributes_nothing (fun _ _ _ => ⟨0, 0⟩) []
      [⟨3, "T 1 C 2", 1, 2, 3⟩] ⟨5, "hello", 0, 0, 0⟩ (by decide)).2 (by decide)⟩

theorem count_ids_one (remap : Int → Int → Int → GfxPoint) :
    ∀ (signs : List Sign), (signs.map Sign.index).Nodup →
    ∀ s ∈ signs, (parseSignCommand remap s).isSome = true →
    (signs.filterMap
        (fun t => (parseSignCommand remap t).map (fun _ => t.index))).count
      s.index = 1 := by
  intro signs
  induction signs with
  | nil =>
    intro _ s hs
    exact absurd hs (List.not_mem_nil s)
  | cons a l ih =>
    intro hnd s hs hsome
    rw [List.map_cons, List.nodup_cons] at hnd
    obtain ⟨hna, hndl⟩ := hnd
    rw [List.filterMap_cons]
    rcases List.mem_cons.mp hs with rfl | hsl
    · cases hpa : parseSignCommand remap s with
      | none =>
        rw [hpa] at hsome
        simp at hsome
      | some c =>
        have hnot : s.index ∉ l.filterMap
            (fun t => (parseSignCommand remap t).map (fun _ => t.index)) :=
          fun hmem => hna ((ids_sublist remap l).subset hmem)
        show List.count s.index (s.index :: l.filterMap
          (fun t => (parseSignCommand remap t).map (fun _ => t.index))) = 1
        rw [List.count_cons_self, List.count_eq_zero.mpr hnot]
    · have hne : s.index ≠ a.index :=
        fun he => hna (he ▸ List.mem_map_of_mem Sign.index hsl)
      cases hpa : parseSignCommand remap a with
      | none =>
        exact ih hndl s hsl hsome
      | some c =>
        show List.count s.index (a.index :: l.filterMap
          (fun t => (parseSignCommand remap t).map (fun _ => t.index))) = 1
        rw [List.count_cons_of_ne hne]
        exact ih hndl s hsl hsome

/-- C7: for distinct sign ids, the deletion list produced by the parser
is strictly descending in sign id, contains exactly the successfully
parsed markers' ids (it is a permutation of the collected ids, gathered
during the scan and then sorted — the two-phase collect-then-delete is
structural in the embedding: the deletion list is computed only from the
completed scan), and deletes every successfully parsed marker exactly
once. -/
theorem C7_deletes_once_descending (remap : Int → Int → Int → GfxPoint)
    (signs : List Sign) (hnd : (signs.map Sign.index).Nodup) :
    (ReadIntroGameViewportCommands remap signs).2.Pairwise (· > ·) ∧
    (∀ s ∈ signs, (parseSignCommand remap s).isSome = true →
      (ReadIntroGameViewportCommands remap signs).2.count s.index = 1) := by
  have hperm : (ReadIntroGameViewportCommands remap signs).2.Perm
      (signs.filterMap
        (fun t => (parseSignCommand remap t).map (fun _ => t.index))) := by
    simp only [ReadIntroGameViewportCommands]
    rw [ids_eq remap signs]
    exact List.perm_insertionSort signIdGE _
  have hnodup : (ReadIntroGameViewportCommands remap signs).2.Nodup :=
    hperm.nodup_iff.mpr ((hnd.sublist (ids_sublist remap signs)))
  have hsorted : (ReadIntroGameViewportCommands remap signs).2.Pairwise signIdGE := by
    simp only [ReadIntroGameViewportCommands]
    exact List.sorted_insertionSort signIdGE _
  constructor
  · exact (hsorted.and hnodup).imp
      (fun hab => Nat.lt_of_le_of_ne hab.1 (fun he => hab.2 he.symm))
  · intro s hs hsome
    rw [hperm.count_eq]
    exact count_ids_one remap signs hnd s hs hsome

/-- C7 witness: of three markers with ids 1, 2, 7 (ids 1 and 7 parse,
id 2 does not), the deletion list is strictly descending and contains
id 7 exactly once. -/
theorem C7_witness :
    ([(⟨1, "T 2 C 3", 0, 0, 0⟩ : Sign), ⟨2, "x", 0, 0, 0⟩,
        ⟨7, "T 1 C 4", 0, 0, 0⟩].map Sign.index).Nodup ∧
    (ReadIntroGameViewportCommands (fun _ _ _ => ⟨0, 0⟩)
      [⟨1, "T 2 C 3", 0, 0, 0⟩, ⟨2, "x", 0, 0, 0⟩,
        ⟨7, "T 1 C 4", 0, 0, 0⟩]).2.Pairwise (· > ·) ∧
    (ReadIntroGameViewportCommands (fun _ _ _ => ⟨0, 0⟩)
      [⟨1, "T 2 C 3", 0, 0, 0⟩, ⟨2, "x", 0, 0, 0⟩,
        ⟨7, "T 1 C 4", 0, 0, 0⟩]).2.count
      (⟨7, "T 1 C 4", 0, 0, 0⟩ : Sign).index = 1 :=
  ⟨by decide,
    (C7_deletes_once_descending (fun _ _ _ => ⟨0, 0⟩)
      [⟨1, "T 2 C 3", 0, 0, 0⟩, ⟨2, "x", 0, 0, 0⟩, ⟨7, "T 1 C 4", 0, 0, 0⟩]
      (by decide)).1,
    (C7_deletes_once_descending (fun _ _ _ => ⟨0, 0⟩)
      [⟨1, "T 2 C 3", 0, 0, 0⟩, ⟨2, "x", 0, 0, 0⟩, ⟨7, "T 1 C 4", 0, 0, 0⟩]
      (by decide)).2 ⟨7, "T 1 C 4", 0, 0, 0⟩ (by decide) (by decide)⟩

theorem natCmpFuel_self : ∀ (n : Nat) (l : List Char), natCmpFuel n l l = 0 := by
  intro n
  induction n with
  | zero => intro l; rfl
  | succ m ih =>
    intro l
    cases l with
    | nil => rfl
    | cons x xs =>
      simp only [natCmpFuel]
      by_cases h1 : isDigitChar x ∧ isDigitChar x
      · rw [if_pos h1, if_neg (lt_irrefl _), if_neg (lt_irrefl _)]
        exact ih _
      · rw [if_neg h1]
        simp only [if_true]
        exact ih _

theorem StrNaturalCompare_self (s : String) : StrNaturalCompare s s = 0 :=
  natCmpFuel_self _ _

/-- Sample records of the in-source server list: the two community cards
used by the spec's natural-sort example. -/
def server2cv : ServerInfo :=
  ⟨0, "#2 CV", "openttd.boxxor.net", 3982, 5000, 53/100, 7/10,
    1999, 2061, 2100, LandscapeType.Temperate, 1⟩

def server19cv : ServerInfo :=
  ⟨1, "#19 CV", "openttd.boxxor.net", 3982, 5000, 0, 7/10,
    1999, 2011, 2100, LandscapeType.Arctic, 1⟩

def serverPortLow : ServerInfo :=
  ⟨0, "CM", "openttd.boxxor.net", 0, 0, 0, 0, 0, 0, 0,
    LandscapeType.Temperate, 0⟩

def serverPortHigh : ServerInfo :=
  ⟨0, "CM", "openttd.boxxor.net", 2147483649, 0, 0, 0, 0, 0, 0,
    LandscapeType.Temperate, 0⟩

/-- C9 (counterexample): the tie-break is NOT ascending-port for every
pair — `r = a->port - b->port` is computed in `uint32_t` and converted
to `int`, so two equal-named records whose ports differ by more than
`2^31` are ordered descending: the record with port `2^31 + 1` sorts
before the record with port `0`. -/
theorem C9_counterexample_port_wraparound :
    serverPortLow.name = serverPortHigh.name ∧
    serverPortLow.port < serverPortHigh.port ∧
    NameSorter serverPortLow serverPortHigh = false ∧
    NameSorter serverPortHigh serverPortLow = true := by
  refine ⟨rfl, by decide, by decide, by decide⟩

/-- C9 (amended): the comparator orders records by natural numeric-aware
name comparison — concretely `"#2 CV"` sorts before `"#19 CV"` — and for
records with equal names it orders them by ascending numeric port
PROVIDED the two ports (in `uint32_t` range) differ by less than `2^31`;
for larger differences the `uint32_t` subtraction converted to `int`
wraps and the order is reversed. -/
theorem C9_natural_sort_and_port_tiebreak (a b : ServerInfo)
    (hname : a.name = b.name)
    (ha : a.port < U32) (hb : b.port < U32)
    (hd1 : a.port < b.port + 2147483648)
    (hd2 : b.port < a.port + 2147483648) :
    NameSorter server2cv server19cv = true ∧
    (NameSorter a b = true ↔ a.port < b.port) := by
  refine ⟨by decide, ?_⟩
  have hr : StrNaturalCompare a.name b.name = 0 := by
    rw [hname]
    exact StrNaturalCompare_self b.name
  simp only [NameSorter, hr, if_true]
  rw [decide_eq_true_eq]
  unfold toInt32 U32 at *
  split_ifs with h
  · omega
  · omega

/-- C9 witness: `"#2 CV"` sorts before `"#19 CV"`, and two equal-named
records with ports 3981 < 3982 (difference well below `2^31`) are
ordered by ascending port. -/
theorem C9_witness :
    NameSorter server2cv server19cv = true ∧
    NameSorter ⟨0, "CM", "a", 3981, 0, 0, 0, 0, 0, 0, LandscapeType.Temperate, 0⟩
      ⟨0, "CM", "a", 3982, 0, 0, 0, 0, 0, 0, LandscapeType.Temperate, 0⟩ = true :=
  ⟨(C9_natural_sort_and_port_tiebreak
      ⟨0, "CM", "a", 3981, 0, 0, 0, 0, 0, 0, LandscapeType.Temperate, 0⟩
      ⟨0, "CM", "a", 3982, 0, 0, 0, 0, 0, 0, LandscapeType.Temperate, 0⟩
      rfl (by decide) (by decide) (by decide) (by decide)).1,
    (C9_natural_sort_and_port_tiebreak
      ⟨0, "CM", "a", 3981, 0, 0, 0, 0, 0, 0, LandscapeType.Temperate, 0⟩
      ⟨0, "CM", "a", 3982, 0, 0, 0, 0, 0, 0, LandscapeType.Temperate, 0⟩
      rfl (by decide) (by decide) (by decide) (by decide)).2.mpr (by decide)⟩
